import Mathlib

/-!
Shallow embedding of `src/crud.py`, a Flask proxy exposing CRUD endpoints
for a Users table backed by an external Backendless data API.

JSON values are modelled by an inductive type; Python dicts parsed from
JSON are association lists with unique keys.  Handlers are modelled as
pure functions taking the parse result of the inbound body (`none` when
`request.get_json(force=True)` raises) and the response the external
service would give, and returning both the Flask-level outcome and the
payload (if any) that was forwarded externally.  Uncaught Python
exceptions (TypeError from `in`/indexing on non-dict values, ValueError
from `int(...)`) are modelled explicitly, since Flask turns them into
HTTP 500 responses.
-/

namespace Crud

/-- A JSON value, as produced by Flask's `request.get_json`. -/
inductive Json where
  | null : Json
  | bool : Bool → Json
  | num : Int → Json
  | str : String → Json
  | arr : List Json → Json
  | obj : List (String × Json) → Json

/-- Python dict lookup on an association list (first match; parsed JSON
dicts have unique keys). -/
def dlookup (k : String) : List (String × Json) → Option Json
  | [] => none
  | (k', v) :: rest => if k' = k then some v else dlookup k rest

/-- Python truthiness of a parsed JSON value, as used by `incoming or {}`
in `create_user`/`update_user`. -/
def truthy : Json → Bool
  | .null => false
  | .bool b => b
  | .num n => n != 0
  | .str s => s ≠ ""
  | .arr xs => !xs.isEmpty
  | .obj fs => !fs.isEmpty

/-- Python exceptions that the handlers can raise uncaught. -/
inductive PyErr where
  | typeError : PyErr
  | valueError : PyErr
  | keyError : PyErr
  | jsonError : PyErr
deriving DecidableEq

/-- Character-list prefix test used to model Python substring membership. -/
def preMatch : List Char → List Char → Bool
  | [], _ => true
  | _ :: _, [] => false
  | a :: as, b :: bs => a == b && preMatch as bs

/-- Character-list substring test: Python `needle in s` for strings. -/
def subMatch (p : List Char) : List Char → Bool
  | [] => preMatch p []
  | c :: rest => preMatch p (c :: rest) || subMatch p rest

/-- Python `k in data` for a string key `k` and an arbitrary parsed JSON
value `data`: key membership on dicts, element equality on lists,
substring test on strings, `TypeError` otherwise. -/
def pyContains (data : Json) (k : String) : Except PyErr Bool :=
  match data with
  | .obj fs => .ok (fs.any (fun p => p.1 == k))
  | .arr xs => .ok (xs.any (fun x => match x with | .str s => s == k | _ => false))
  | .str s => .ok (subMatch k.toList s.toList)
  | _ => .error .typeError

/-- Python `data[k]` for a string key `k`: dict lookup (KeyError when the
key is absent), `TypeError` on every non-dict value. -/
def pyIndex (data : Json) (k : String) : Except PyErr Json :=
  match data with
  | .obj fs =>
    match dlookup k fs with
    | some v => .ok v
    | none => .error .keyError
  | _ => .error .typeError

/-- The allow-list of `pick_user_fields` in `crud.py`. -/
def allowedFields : List String :=
  ["email", "First Name", "Last Name", "ID", "password", "username"]

/-- The loop body of `pick_user_fields`: `for k in allowed: if k in data:
out[k] = data[k]`. -/
def pickLoop (data : Json) : List String → Except PyErr (List (String × Json))
  | [] => .ok []
  | k :: ks => do
    let c ← pyContains data k
    if c then
      let v ← pyIndex data k
      let rest ← pickLoop data ks
      .ok ((k, v) :: rest)
    else
      pickLoop data ks

/-- `pick_user_fields` from `crud.py`: keep only the allow-listed fields
of `data`.  On non-dict inputs the Python code can raise `TypeError`,
which the `Except` layer records. -/
def pick_user_fields (data : Json) : Except PyErr (List (String × Json)) :=
  pickLoop data allowedFields

/-- The pure filtering function on dicts that `pick_user_fields` computes
when its input is a dict. -/
def pickD (d : List (String × Json)) : List (String × Json) :=
  allowedFields.filterMap (fun k => (dlookup k d).map (fun v => (k, v)))

/-- `incoming = request.get_json(force=True) or {}`: a falsy parsed body
is replaced by the empty dict. -/
def incomingOf (j : Json) : Json :=
  if truthy j then j else Json.obj []

/-- An HTTP response from the external service, as seen through the
`requests` library: status code, the result of `resp.json()` when the
body parses as JSON (`none` when parsing would raise), and `resp.text`. -/
structure HttpResp where
  status : Nat
  jsonBody : Option Json
  text : String

/-- `resp.ok` in `requests`: status code below 400. -/
def HttpResp.ok (r : HttpResp) : Bool := r.status < 400

/-- `be_error` from `crud.py`: normalize an external failure into the
envelope `{error: true, status: s, backendless: body}` returned with the
external status code.  `body` is `resp.json()` when it parses, otherwise
`{"message": resp.text or "Backendless error"}`. -/
def be_error (resp : HttpResp) : Json × Nat :=
  (Json.obj
    [("error", .bool true),
     ("status", .num resp.status),
     ("backendless",
       match resp.jsonBody with
       | some j => j
       | none =>
         Json.obj [("message",
           .str (if resp.text = "" then "Backendless error" else resp.text))])],
   resp.status)

/-- Outcome of a Flask handler: a normal `(jsonify(body), status)` reply,
an `abort(status, description)`, or an uncaught Python exception. -/
inductive HResult where
  | reply (body : Json) (status : Nat)
  | httpAbort (status : Nat) (desc : String)
  | crash (e : PyErr)

/-- The HTTP status the caller observes: Flask maps an uncaught
exception to 500. -/
def HResult.httpStatus : HResult → Nat
  | .reply _ s => s
  | .httpAbort s _ => s
  | .crash _ => 500

/-- Result of `create_user`: the handler outcome plus the payload
forwarded to the external service (`none` when no outbound call was
made). -/
structure HOut where
  result : HResult
  forwarded : Option (List (String × Json))

/-- Result of `update_user`: outcome plus the forwarded `(url, payload)`
pair. -/
structure UOut where
  result : HResult
  forwarded : Option (String × List (String × Json))

/-- Result of `list_users` / `find_by_email` / `find_by_username`:
outcome plus the query parameters (in insertion order) passed to
`urlencode` for the outbound call. -/
structure ListOut where
  result : HResult
  forwardedQuery : Option (List (String × String))

/-- `create_user` from `crud.py`.  `parsed` is the result of
`request.get_json(force=True)` (`none` when it raises); `resp` is the
external response received if a call is made. -/
def create_user (parsed : Option Json) (resp : HttpResp) : HOut :=
  match parsed with
  | none => ⟨.httpAbort 400 "Invalid JSON body", none⟩
  | some j =>
    match pick_user_fields (incomingOf j) with
    | .error e => ⟨.crash e, none⟩
    | .ok payload =>
      if (dlookup "email" payload).isNone || (dlookup "username" payload).isNone then
        ⟨.httpAbort 400 "Fields \x27email\x27 and \x27username\x27 are required", none⟩
      else if resp.ok then
        match resp.jsonBody with
        | some body => ⟨.reply body 201, some payload⟩
        | none => ⟨.crash .jsonError, some payload⟩
      else
        ⟨.reply (be_error resp).1 (be_error resp).2, some payload⟩

/-- `update_user` from `crud.py` (handles both PUT and PATCH on
`/users/<object_id>`).  `base` is `BACKENDLESS_BASE_URL`. -/
def update_user (base objectId : String) (parsed : Option Json) (resp : HttpResp) : UOut :=
  match parsed with
  | none => ⟨.httpAbort 400 "Invalid JSON body", none⟩
  | some j =>
    match pick_user_fields (incomingOf j) with
    | .error e => ⟨.crash e, none⟩
    | .ok payload =>
      if payload.isEmpty then
        ⟨.httpAbort 400 "No updatable fields provided", none⟩
      else if resp.ok then
        match resp.jsonBody with
        | some body => ⟨.reply body 200, some (base ++ "/" ++ objectId, payload)⟩
        | none => ⟨.crash .jsonError, some (base ++ "/" ++ objectId, payload)⟩
      else
        ⟨.reply (be_error resp).1 (be_error resp).2, some (base ++ "/" ++ objectId, payload)⟩

/-- `delete_user` from `crud.py`: on external status 200 or 204 reply
`{deleted: true, objectId: id}` with status 200, otherwise `be_error`. -/
def delete_user (objectId : String) (resp : HttpResp) : Json × Nat :=
  if resp.status = 200 ∨ resp.status = 204 then
    (Json.obj [("deleted", .bool true), ("objectId", .str objectId)], 200)
  else
    be_error resp

/-- Result of `get_user`: outcome plus the URL of the outbound call
(which is always made — the handler has no validation). -/
structure GOut where
  result : HResult
  forwardedUrl : String

/-- `get_user` from `crud.py`: forwards a lookup to `<base>/<id>` and
returns the external JSON body with status 200, or the `be_error`
envelope on a non-ok external response. -/
def get_user (base objectId : String) (resp : HttpResp) : GOut :=
  if resp.ok then
    match resp.jsonBody with
    | some body => ⟨.reply body 200, base ++ "/" ++ objectId⟩
    | none => ⟨.crash .jsonError, base ++ "/" ++ objectId⟩
  else
    ⟨.reply (be_error resp).1 (be_error resp).2, base ++ "/" ++ objectId⟩

/-- Whitespace stripped by Python `int(str)` before parsing. -/
def isPySpace (c : Char) : Bool :=
  c = ' ' || c = '\t' || c = '\n' || c = '\r' || c = '\x0b' || c = '\x0c'

/-- Digit run with optional single underscores between digits, as
accepted by Python integer parsing; accumulates the value. -/
def digitsRest (acc : Nat) : List Char → Option Nat
  | [] => some acc
  | '_' :: c :: cs => if c.isDigit then digitsRest (acc * 10 + (c.toNat - 48)) cs else none
  | ['_'] => none
  | c :: cs => if c.isDigit then digitsRest (acc * 10 + (c.toNat - 48)) cs else none

/-- Parse a non-empty unsigned digit sequence (underscores allowed only
between digits). -/
def parseUInt : List Char → Option Nat
  | [] => none
  | c :: cs => if c.isDigit then digitsRest (c.toNat - 48) cs else none

/-- Python `int(s)` on a string: strip whitespace, optional sign, digits;
raises `ValueError` on anything else. -/
def pyInt (s : String) : Except PyErr Int :=
  let t := ((s.toList.dropWhile isPySpace).reverse.dropWhile isPySpace).reverse
  match t with
  | '+' :: cs =>
    match parseUInt cs with
    | some n => .ok (n : Int)
    | none => .error .valueError
  | '-' :: cs =>
    match parseUInt cs with
    | some n => .ok (-(n : Int))
    | none => .error .valueError
  | cs =>
    match parseUInt cs with
    | some n => .ok (n : Int)
    | none => .error .valueError

/-- `list_users` from `crud.py`.  The four arguments are the raw query
parameter strings (`none` when absent); `resp` is the external response
received if the outbound call is made.  `int(...)` of an unparseable
value raises before any call; `where`/`sortBy` are included only when
truthy (present and non-empty). -/
def list_users (pageSizeArg offsetArg whereArg sortByArg : Option String)
    (resp : HttpResp) : ListOut :=
  match (match pageSizeArg with | none => Except.ok (50 : Int) | some s => pyInt s) with
  | .error e => ⟨.crash e, none⟩
  | .ok pageSize =>
    match (match offsetArg with | none => Except.ok (0 : Int) | some s => pyInt s) with
    | .error e => ⟨.crash e, none⟩
    | .ok offset =>
      let params :=
        [("pageSize", toString pageSize), ("offset", toString offset)]
        ++ (match whereArg with
            | some w => if w ≠ "" then [("where", w)] else []
            | none => [])
        ++ (match sortByArg with
            | some sb => if sb ≠ "" then [("sortBy", sb)] else []
            | none => [])
      if resp.ok then
        match resp.jsonBody with
        | some body => ⟨.reply body 200, some params⟩
        | none => ⟨.crash .jsonError, some params⟩
      else
        ⟨.reply (be_error resp).1 (be_error resp).2, some params⟩

/-- `find_by_email` from `crud.py`: forwards a list query with
`where=email='<value>'` and fixed pagination. -/
def find_by_email (email : String) (resp : HttpResp) : ListOut :=
  let whereClause := "email=\x27" ++ email ++ "\x27"
  let params := [("where", whereClause), ("pageSize", "50"), ("offset", "0")]
  if resp.ok then
    match resp.jsonBody with
    | some items => ⟨.reply items 200, some params⟩
    | none => ⟨.crash .jsonError, some params⟩
  else
    ⟨.reply (be_error resp).1 (be_error resp).2, some params⟩

/-- `find_by_username` from `crud.py`: forwards a list query with
`where=username='<value>'` and fixed pagination. -/
def find_by_username (username : String) (resp : HttpResp) : ListOut :=
  let whereClause := "username=\x27" ++ username ++ "\x27"
  let params := [("where", whereClause), ("pageSize", "50"), ("offset", "0")]
  if resp.ok then
    match resp.jsonBody with
    | some items => ⟨.reply items 200, some params⟩
    | none => ⟨.crash .jsonError, some params⟩
  else
    ⟨.reply (be_error resp).1 (be_error resp).2, some params⟩

/-- UTF-8 bytes of a code point, for percent-encoding. -/
def utf8Bytes (n : Nat) : List Nat :=
  if n < 128 then [n]
  else if n < 2048 then [192 + n / 64, 128 + n % 64]
  else if n < 65536 then [224 + n / 4096, 128 + (n / 64) % 64, 128 + n % 64]
  else [240 + n / 262144, 128 + (n / 4096) % 64, 128 + (n / 64) % 64, 128 + n % 64]

/-- Uppercase hexadecimal digit, as `urllib.parse.quote` emits. -/
def hexDigit (n : Nat) : Char :=
  if n < 10 then Char.ofNat (48 + n) else Char.ofNat (55 + n)

/-- Percent-encode one byte. -/
def pctByte (b : Nat) : String :=
  "%" ++ String.singleton (hexDigit (b / 16)) ++ String.singleton (hexDigit (b % 16))

/-- `urllib.parse.quote_plus` on one character with `safe=''`: ASCII
alphanumerics and `_.-~` kept, space becomes `+`, everything else
percent-encoded byte by byte. -/
def quotePlusChar (c : Char) : String :=
  if c.isAlphanum || c = '_' || c = '.' || c = '-' || c = '~' then
    String.singleton c
  else if c = ' ' then "+"
  else
    String.join ((utf8Bytes c.toNat).map pctByte)

/-- `urllib.parse.quote_plus` with `safe=''`, as `urlencode` applies to
every key and value. -/
def quotePlus (s : String) : String :=
  String.join (s.toList.map quotePlusChar)

/-- One `key=value` pair of the encoded query string. -/
def encPair (p : String × String) : String :=
  quotePlus p.1 ++ "=" ++ quotePlus p.2

/-- `urllib.parse.urlencode`: `&`-join the encoded pairs in order. -/
def urlencode : List (String × String) → String
  | [] => ""
  | [p] => encPair p
  | p :: rest => encPair p ++ "&" ++ urlencode rest

/-- A parse result for which `pick_user_fields` cannot raise: the body
failed to parse, or parsed to a falsy value (replaced by `{}`), or parsed
to a JSON object. -/
def objOrFalsy : Option Json → Prop
  | none => True
  | some j => truthy j = false ∨ ∃ d, j = Json.obj d

/-- The allow-list-filtered payload of a parsed body (after the
`or {}` substitution); `[]` in the unreachable error case. -/
def filteredOf (j : Json) : List (String × Json) :=
  match pick_user_fields (incomingOf j) with
  | .ok p => p
  | .error _ => []

/-- The `create_user` validation test: `email` or `username` absent from
the filtered payload. -/
def reqMissing (j : Json) : Bool :=
  (dlookup "email" (filteredOf j)).isNone || (dlookup "username" (filteredOf j)).isNone

/-- A pagination argument that `int(...)` accepts: absent, or parseable. -/
def intArgOk : Option String → Prop
  | none => True
  | some s => ∃ n, pyInt s = .ok n

/-- The external-body half of the `be_error` envelope: the body parsed as
JSON when parsing succeeds, otherwise a default message built from the
raw response text. -/
def backendlessBody (resp : HttpResp) : Json :=
  match resp.jsonBody with
  | some j => j
  | none =>
    Json.obj [("message",
      .str (if resp.text = "" then "Backendless error" else resp.text))]

/-- The normalized Delete confirmation `{deleted: true, objectId: id}`
with status 200. -/
def deletedReply (objectId : String) : Json × Nat :=
  (Json.obj [("deleted", .bool true), ("objectId", .str objectId)], 200)

/-! ### Bridge lemmas between `pick_user_fields` and `pickD` -/

theorem any_key_eq_isSome (d : List (String × Json)) (k : String) :
    d.any (fun p => p.1 == k) = (dlookup k d).isSome := by
  induction d with
  | nil => rfl
  | cons p rest ih =>
    cases p with
    | mk k' v =>
      simp only [List.any_cons, dlookup]
      by_cases h : k' = k
      · simp [h]
      · simp [h, ih]

theorem pickLoop_obj (d : List (String × Json)) (ks : List String) :
    pickLoop (Json.obj d) ks
      = .ok (ks.filterMap (fun k => (dlookup k d).map (fun v => (k, v)))) := by
  induction ks with
  | nil => rfl
  | cons k ks ih =>
    simp only [pickLoop, pyContains, any_key_eq_isSome, List.filterMap_cons]
    cases h : dlookup k d with
    | none => simp [h, ih, Bind.bind, Except.bind]
    | some v => simp [h, ih, pyIndex, Bind.bind, Except.bind]

theorem pick_obj (d : List (String × Json)) :
    pick_user_fields (Json.obj d) = .ok (pickD d) :=
  pickLoop_obj d allowedFields

theorem dlookup_filterMap (d : List (String × Json)) (ks : List String) (k : String) :
    dlookup k (ks.filterMap (fun k' => (dlookup k' d).map (fun v => (k', v))))
      = if k ∈ ks then dlookup k d else none := by
  induction ks with
  | nil => simp [dlookup]
  | cons k' ks ih =>
    cases h : dlookup k' d with
    | none =>
      simp only [List.filterMap_cons, h, Option.map_none']
      rw [ih]
      by_cases hk : k = k'
      · subst hk
        simp only [List.mem_cons, true_or, if_pos, h]
        by_cases hm : k ∈ ks <;> simp [hm, h]
      · simp [List.mem_cons, hk]
    | some v =>
      simp only [List.filterMap_cons, h, Option.map_some', dlookup]
      by_cases hk : k' = k
      · subst hk
        simp [h]
      · simp only [hk, if_false, ih]
        have hne : ¬ k = k' := fun hh => hk hh.symm
        simp [List.mem_cons, hne]

theorem incoming_obj (d : List (String × Json)) :
    incomingOf (Json.obj d) = Json.obj d := by
  cases d with
  | nil => rfl
  | cons p rest => rfl

theorem pick_incoming {j : Json} (h : objOrFalsy (some j)) :
    pick_user_fields (incomingOf j) = .ok (filteredOf j) := by
  have hobj : ∃ d, incomingOf j = Json.obj d := by
    rcases h with h | ⟨d, rfl⟩
    · exact ⟨[], by simp [incomingOf, h]⟩
    · exact ⟨d, incoming_obj d⟩
  rcases hobj with ⟨d, hd⟩
  rw [filteredOf, hd, pick_obj]

/-! ### Claim theorems -/

/-- C1: for every inbound Create or Update payload, the forwarded payload
contains exactly the input fields whose names are in the allow-list
{email, First Name, Last Name, ID, password, username}; every other field
is dropped and surviving values are unchanged.  Stated as: filtering a
dict succeeds and yields `pickD d`, whose lookup agrees with the input's
lookup exactly on allow-listed keys; and whenever Create or Update makes
an outbound call, the forwarded payload is exactly that filtered dict. -/
theorem pick_user_fields_allowlist (d : List (String × Json)) (k : String) :
    pick_user_fields (Json.obj d) = .ok (pickD d)
    ∧ dlookup k (pickD d) = (if k ∈ allowedFields then dlookup k d else none)
    ∧ (∀ resp : HttpResp,
        (create_user (some (Json.obj d)) resp).forwarded = none
        ∨ (create_user (some (Json.obj d)) resp).forwarded = some (pickD d))
    ∧ (∀ (base objectId : String) (resp : HttpResp),
        (update_user base objectId (some (Json.obj d)) resp).forwarded = none
        ∨ (update_user base objectId (some (Json.obj d)) resp).forwarded
            = some (base ++ "/" ++ objectId, pickD d)) := by
  refine ⟨pick_obj d, dlookup_filterMap d allowedFields k, ?_, ?_⟩
  · intro resp
    simp only [create_user, incoming_obj, pick_obj]
    split
    · exact Or.inl rfl
    · split
      · split <;> exact Or.inr rfl
      · exact Or.inr rfl
  · intro base objectId resp
    simp only [update_user, incoming_obj, pick_obj]
    split
    · exact Or.inl rfl
    · split
      · split <;> exact Or.inr rfl
      · exact Or.inr rfl

/-- C10: a request whose body parses to the JSON literal `null` is
replaced by the empty object before filtering, so Create rejects it with
400 (missing required fields) and Update rejects it with 400 (empty
payload), and neither forwards anything externally. -/
theorem null_body_rejected (base objectId : String) (resp : HttpResp) :
    create_user (some Json.null) resp
      = ⟨.httpAbort 400 "Fields \x27email\x27 and \x27username\x27 are required", none⟩
    ∧ update_user base objectId (some Json.null) resp
      = ⟨.httpAbort 400 "No updatable fields provided", none⟩ :=
  ⟨rfl, rfl⟩

/-- C7: find-by-email and find-by-username always forward a list query
whose `where` parameter is exactly `<field>='<value>'` with the supplied
value inserted literally (no escaping of embedded quotes), together with
`pageSize=50` and `offset=0`. -/
theorem find_by_where_clause (email username : String) (resp : HttpResp) :
    (find_by_email email resp).forwardedQuery
      = some [("where", "email=\x27" ++ email ++ "\x27"),
              ("pageSize", "50"), ("offset", "0")]
    ∧ (find_by_username username resp).forwardedQuery
      = some [("where", "username=\x27" ++ username ++ "\x27"),
              ("pageSize", "50"), ("offset", "0")] := by
  constructor <;>
  · simp only [find_by_email, find_by_username]
    split
    · split <;> rfl
    · rfl

/-- C5: Delete replies with the normalized `{deleted: true, objectId: id}`
object and status 200 exactly when the external status is 200 or 204; on
every other external status it replies with the `be_error` envelope,
propagating the external status. -/
theorem delete_user_contract (objectId : String) (resp : HttpResp) :
    (delete_user objectId resp = deletedReply objectId
      ↔ (resp.status = 200 ∨ resp.status = 204))
    ∧ (deletedReply objectId).2 = 200
    ∧ (¬(resp.status = 200 ∨ resp.status = 204) →
        delete_user objectId resp = be_error resp
        ∧ (delete_user objectId resp).2 = resp.status) := by
  refine ⟨⟨?_, ?_⟩, rfl, ?_⟩
  · intro heq
    by_cases hs : resp.status = 200 ∨ resp.status = 204
    · exact hs
    · exfalso
      have hbe : delete_user objectId resp = be_error resp := by
        unfold delete_user
        rw [if_neg hs]
      rw [hbe] at heq
      have h2 := congrArg Prod.snd heq
      simp only [be_error, deletedReply] at h2
      exact hs (Or.inl h2)
  · intro hs
    unfold delete_user
    rw [if_pos hs]
    rfl
  · intro hs
    constructor
    · unfold delete_user
      rw [if_neg hs]
    · unfold delete_user
      rw [if_neg hs]
      rfl

/-- Witness for C5 at external status 204. -/
theorem delete_user_contract_witness :
    delete_user "abc" ⟨204, none, ""⟩ = deletedReply "abc" :=
  (delete_user_contract "abc" ⟨204, none, ""⟩).1.mpr (Or.inr rfl)

/-- C4: `be_error` builds the envelope `{error: true, status: s,
backendless: body}` where `body` is the external response parsed as JSON
when parsing succeeds and otherwise an object carrying the raw text as a
default message, and the status returned to the caller is the external
status; and whenever List, Create or Update made the outbound call and
the external response is not a success, the handler replies with exactly
that envelope and status. -/
theorem be_error_envelope (resp : HttpResp) :
    (be_error resp).2 = resp.status
    ∧ (be_error resp).1
        = Json.obj [("error", .bool true), ("status", .num resp.status),
                    ("backendless", backendlessBody resp)]
    ∧ (resp.ok = false → ∀ (ps off w sb : Option String) (q : List (String × String)),
        (list_users ps off w sb resp).forwardedQuery = some q →
        (list_users ps off w sb resp).result = .reply (be_error resp).1 resp.status)
    ∧ (resp.ok = false → ∀ (parsed : Option Json) (p : List (String × Json)),
        (create_user parsed resp).forwarded = some p →
        (create_user parsed resp).result = .reply (be_error resp).1 resp.status)
    ∧ (resp.ok = false → ∀ (base objectId : String) (parsed : Option Json)
          (up : String × List (String × Json)),
        (update_user base objectId parsed resp).forwarded = some up →
        (update_user base objectId parsed resp).result
          = .reply (be_error resp).1 resp.status)
    ∧ (resp.ok = false → ∀ (base objectId : String),
        (get_user base objectId resp).result = .reply (be_error resp).1 resp.status)
    ∧ (resp.ok = false → ∀ email : String,
        (find_by_email email resp).result = .reply (be_error resp).1 resp.status)
    ∧ (resp.ok = false → ∀ username : String,
        (find_by_username username resp).result = .reply (be_error resp).1 resp.status)
    ∧ (resp.ok = false → ∀ objectId : String,
        delete_user objectId resp = ((be_error resp).1, resp.status)) := by
  refine ⟨rfl, rfl, ?_, ?_, ?_, ?_, ?_, ?_, ?_⟩
  · intro hok ps off w sb q hq
    revert hq
    simp only [list_users]
    split
    · intro h
      cases h
    · split
      · intro h
        cases h
      · rw [hok]
        simp only [Bool.false_eq_true, if_false]
        intro _
        rfl
  · intro hok parsed p hp
    revert hp
    cases parsed with
    | none =>
      intro h
      cases h
    | some j =>
      simp only [create_user]
      split
      · intro h
        cases h
      · split
        · intro h
          cases h
        · rw [hok]
          simp only [Bool.false_eq_true, if_false]
          intro _
          rfl
  · intro hok base objectId parsed up hp
    revert hp
    cases parsed with
    | none =>
      intro h
      cases h
    | some j =>
      simp only [update_user]
      split
      · intro h
        cases h
      · split
        · intro h
          cases h
        · rw [hok]
          simp only [Bool.false_eq_true, if_false]
          intro _
          rfl
  · intro hok base objectId
    simp only [get_user, hok, Bool.false_eq_true, if_false]
    rfl
  · intro hok email
    simp only [find_by_email, hok, Bool.false_eq_true, if_false]
    rfl
  · intro hok username
    simp only [find_by_username, hok, Bool.false_eq_true, if_false]
    rfl
  · intro hok objectId
    have hlt : ¬ resp.status < 400 := by
      simpa only [HttpResp.ok, decide_eq_false_iff_not] using hok
    have hs : ¬(resp.status = 200 ∨ resp.status = 204) := by
      rintro (h | h) <;> omega
    unfold delete_user
    rw [if_neg hs]
    rfl

/-- Witness for C4: a 404 from the external service is mirrored to the
caller of List with the normalized envelope. -/
theorem be_error_envelope_witness :
    (list_users none none none none ⟨404, some (Json.str "nf"), "x"⟩).result
      = .reply (be_error ⟨404, some (Json.str "nf"), "x"⟩).1 404 :=
  (be_error_envelope ⟨404, some (Json.str "nf"), "x"⟩).2.2.1 rfl
    none none none none [("pageSize", "50"), ("offset", "0")] rfl

/-- Counterexample to C2 as stated: the body `42` is valid JSON with
`email` and `username` absent, so the claim requires HTTP 400; the code
instead raises an uncaught `TypeError` inside `pick_user_fields`
(`"email" in 42`), which Flask surfaces as HTTP 500. -/
theorem create_user_nonobject_counterexample :
    create_user (some (Json.num 42)) ⟨200, some (Json.obj []), ""⟩
      = ⟨.crash .typeError, none⟩
    ∧ (create_user (some (Json.num 42)) ⟨200, some (Json.obj []), ""⟩).result.httpStatus
        = 500 :=
  ⟨rfl, rfl⟩

/-- C2 (amended): provided the body parse result is a JSON object or a
falsy value (those are the cases where filtering cannot raise), Create
returns HTTP 400 with no outbound call exactly when the body is invalid
JSON or `email`/`username` is absent after filtering; otherwise it
forwards exactly the filtered payload and, on external success with a
JSON body, replies with that record and status 201. -/
theorem create_user_contract (parsed : Option Json) (resp : HttpResp)
    (h : objOrFalsy parsed) :
    (((create_user parsed resp).result.httpStatus = 400
        ∧ (create_user parsed resp).forwarded = none)
      ↔ (parsed = none ∨ ∃ j, parsed = some j ∧ reqMissing j = true))
    ∧ (∀ j, parsed = some j → reqMissing j = false →
        (create_user parsed resp).forwarded = some (filteredOf j)
        ∧ (resp.status < 400 → ∀ b, resp.jsonBody = some b →
            (create_user parsed resp).result = .reply b 201)) := by
  cases parsed with
  | none =>
    refine ⟨⟨fun _ => Or.inl rfl, fun _ => ⟨rfl, rfl⟩⟩, ?_⟩
    intro j hj
    cases hj
  | some j =>
    have hpick := pick_incoming h
    constructor
    · cases hm : reqMissing j with
      | true =>
        have hm' := hm
        simp only [reqMissing] at hm'
        simp only [create_user, hpick, hm', if_true]
        exact ⟨fun _ => Or.inr ⟨j, rfl, hm⟩, fun _ => by simp [HResult.httpStatus]⟩
      | false =>
        have hm' := hm
        simp only [reqMissing] at hm'
        simp only [create_user, hpick, hm', Bool.false_eq_true, if_false]
        constructor
        · rintro ⟨-, hfwd⟩
          exfalso
          revert hfwd
          split
          · split <;> (intro hh; cases hh)
          · intro hh
            cases hh
        · rintro (h0 | ⟨j', hj', hm2⟩)
          · cases h0
          · injection hj' with hje
            subst hje
            rw [hm2] at hm
            cases hm
    · intro j' hj' hm
      injection hj' with hje
      subst hje
      have hm2 := hm
      simp only [reqMissing] at hm2
      refine ⟨?_, ?_⟩
      · simp only [create_user, hpick, hm2, Bool.false_eq_true, if_false]
        split
        · split <;> rfl
        · rfl
      · intro hlt b hb
        have hok : resp.ok = true := by
          simp only [HttpResp.ok, decide_eq_true_eq]
          exact hlt
        simp only [create_user, hpick, hm2, Bool.false_eq_true, if_false, hok,
          if_true, hb]

/-- Witness for C2 (amended): a valid create with both required fields
forwards and replies 201 with the created record. -/
theorem create_user_contract_witness :
    (create_user
        (some (Json.obj [("email", Json.str "a"), ("username", Json.str "u")]))
        ⟨200, some (Json.str "rec"), ""⟩).result
      = .reply (Json.str "rec") 201 :=
  ((create_user_contract
      (some (Json.obj [("email", Json.str "a"), ("username", Json.str "u")]))
      ⟨200, some (Json.str "rec"), ""⟩
      (Or.inr ⟨_, rfl⟩)).2 _ rfl rfl).2 (by decide) _ rfl

/-- Counterexample to C3 as stated: the body `42` is valid JSON whose
allow-list filtering keeps nothing, so the claim requires HTTP 400; the
code instead raises an uncaught `TypeError` inside `pick_user_fields`,
which Flask surfaces as HTTP 500. -/
theorem update_user_nonobject_counterexample :
    update_user "base" "id1" (some (Json.num 42)) ⟨200, some (Json.obj []), ""⟩
      = ⟨.crash .typeError, none⟩
    ∧ (update_user "base" "id1" (some (Json.num 42))
        ⟨200, some (Json.obj []), ""⟩).result.httpStatus = 500 :=
  ⟨rfl, rfl⟩

/-- C3 (amended): provided the body parse result is a JSON object or a
falsy value, Update (one handler for both PUT and PATCH) returns HTTP 400
with no outbound call exactly when the body is invalid JSON or the
filtered payload is empty; otherwise it forwards exactly the filtered
payload to `<base>/<id>` and, on external success with a JSON body,
replies with that record and status 200. -/
theorem update_user_contract (base objectId : String) (parsed : Option Json)
    (resp : HttpResp) (h : objOrFalsy parsed) :
    (((update_user base objectId parsed resp).result.httpStatus = 400
        ∧ (update_user base objectId parsed resp).forwarded = none)
      ↔ (parsed = none ∨ ∃ j, parsed = some j ∧ (filteredOf j).isEmpty = true))
    ∧ (∀ j, parsed = some j → (filteredOf j).isEmpty = false →
        (update_user base objectId parsed resp).forwarded
          = some (base ++ "/" ++ objectId, filteredOf j)
        ∧ (resp.status < 400 → ∀ b, resp.jsonBody = some b →
            (update_user base objectId parsed resp).result = .reply b 200)) := by
  cases parsed with
  | none =>
    refine ⟨⟨fun _ => Or.inl rfl, fun _ => ⟨rfl, rfl⟩⟩, ?_⟩
    intro j hj
    cases hj
  | some j =>
    have hpick := pick_incoming h
    constructor
    · cases hm : (filteredOf j).isEmpty with
      | true =>
        simp only [update_user, hpick, hm, if_true]
        exact ⟨fun _ => Or.inr ⟨j, rfl, hm⟩, fun _ => by simp [HResult.httpStatus]⟩
      | false =>
        simp only [update_user, hpick, hm, Bool.false_eq_true, if_false]
        constructor
        · rintro ⟨-, hfwd⟩
          exfalso
          revert hfwd
          split
          · split <;> (intro hh; cases hh)
          · intro hh
            cases hh
        · rintro (h0 | ⟨j', hj', hm2⟩)
          · cases h0
          · injection hj' with hje
            subst hje
            rw [hm2] at hm
            cases hm
    · intro j' hj' hm
      injection hj' with hje
      subst hje
      refine ⟨?_, ?_⟩
      · simp only [update_user, hpick, hm, Bool.false_eq_true, if_false]
        split
        · split <;> rfl
        · rfl
      · intro hlt b hb
        have hok : resp.ok = true := by
          simp only [HttpResp.ok, decide_eq_true_eq]
          exact hlt
        simp only [update_user, hpick, hm, Bool.false_eq_true, if_false, hok,
          if_true, hb]

/-- Witness for C3 (amended): a valid partial update forwards to
`<base>/<id>` and replies 200 with the updated record. -/
theorem update_user_contract_witness :
    (update_user "http://b" "id9" (some (Json.obj [("email", Json.str "a")]))
        ⟨200, some (Json.str "rec"), ""⟩).result
      = .reply (Json.str "rec") 200 :=
  ((update_user_contract "http://b" "id9"
      (some (Json.obj [("email", Json.str "a")]))
      ⟨200, some (Json.str "rec"), ""⟩
      (Or.inr ⟨_, rfl⟩)).2 _ rfl rfl).2 (by decide) _ rfl

/-- Counterexample to C6 as stated: a supplied-but-empty `where`
parameter is falsy in Python, so `list_users` drops it instead of
including it with its literal (empty) value. -/
theorem list_users_empty_where_counterexample :
    (list_users none none (some "") none ⟨200, some (Json.arr []), ""⟩).forwardedQuery
      = some [("pageSize", "50"), ("offset", "0")]
    ∧ [("pageSize", "50"), ("offset", "0")].all (fun p => p.1 != "where") = true :=
  ⟨rfl, rfl⟩

/-- C6 (amended): List with no query parameters forwards exactly
`pageSize=50` and `offset=0` and no `where`/`sortBy`; a `where` or
`sortBy` supplied with a non-empty value is included with its literal
value, URL-encoded (an empty supplied value is dropped). -/
theorem list_users_query_contract (resp : HttpResp) (w sb : String)
    (hw : w ≠ "") (hsb : sb ≠ "") :
    (list_users none none none none resp).forwardedQuery
        = some [("pageSize", "50"), ("offset", "0")]
    ∧ urlencode [("pageSize", "50"), ("offset", "0")] = "pageSize=50&offset=0"
    ∧ (list_users none none (some w) (some sb) resp).forwardedQuery
        = some [("pageSize", "50"), ("offset", "0"), ("where", w), ("sortBy", sb)]
    ∧ (list_users none none (some w) none resp).forwardedQuery
        = some [("pageSize", "50"), ("offset", "0"), ("where", w)]
    ∧ (list_users none none none (some sb) resp).forwardedQuery
        = some [("pageSize", "50"), ("offset", "0"), ("sortBy", sb)]
    ∧ urlencode [("pageSize", "50"), ("offset", "0"),
          ("where", "username=\x27leo\x27")]
        = "pageSize=50&offset=0&where=username%3D%27leo%27" := by
  refine ⟨?_, rfl, ?_, ?_, ?_, rfl⟩
  · simp only [list_users]
    split
    · split <;> rfl
    · rfl
  · simp only [list_users]
    rw [if_pos hw, if_pos hsb]
    split
    · split <;> rfl
    · rfl
  · simp only [list_users]
    rw [if_pos hw]
    split
    · split <;> rfl
    · rfl
  · simp only [list_users]
    rw [if_pos hsb]
    split
    · split <;> rfl
    · rfl

/-- Witness for C6 (amended): a non-empty `where` is forwarded with its
literal value. -/
theorem list_users_query_contract_witness :
    (list_users none none (some "username=\x27leo\x27") none
        ⟨200, some (Json.arr []), ""⟩).forwardedQuery
      = some [("pageSize", "50"), ("offset", "0"),
              ("where", "username=\x27leo\x27")] :=
  (list_users_query_contract ⟨200, some (Json.arr []), ""⟩
      "username=\x27leo\x27" "x" (by decide) (by decide)).2.2.2.1

/-- Counterexample to C8 as stated: on an external 201 success, List
replies with the body but hard-codes status 200, so the caller's status
does not equal the external status. -/
theorem list_users_status_counterexample :
    (list_users none none none none ⟨201, some (Json.arr []), ""⟩).result
      = .reply (Json.arr []) 200
    ∧ (list_users none none none none
        ⟨201, some (Json.arr []), ""⟩).result.httpStatus ≠ 201 :=
  ⟨rfl, by decide⟩

/-- C8 (amended): for every successful external call (status < 400)
whose body parses as JSON, List returns that body verbatim with HTTP
status 200, regardless of the external status code. -/
theorem list_users_success_returns_200 (ps off w sb : Option String)
    (resp : HttpResp) (b : Json)
    (hps : intArgOk ps) (hoff : intArgOk off)
    (hok : resp.status < 400) (hb : resp.jsonBody = some b) :
    (list_users ps off w sb resp).result = .reply b 200 := by
  have hok2 : resp.ok = true := by
    simp only [HttpResp.ok, decide_eq_true_eq]
    exact hok
  have hps2 : ∃ n : Int, (match ps with
      | none => Except.ok (50 : Int)
      | some s => pyInt s) = Except.ok n := by
    cases ps with
    | none => exact ⟨50, rfl⟩
    | some s => exact hps
  have hoff2 : ∃ n : Int, (match off with
      | none => Except.ok (0 : Int)
      | some s => pyInt s) = Except.ok n := by
    cases off with
    | none => exact ⟨0, rfl⟩
    | some s => exact hoff
  rcases hps2 with ⟨n1, h1⟩
  rcases hoff2 with ⟨n2, h2⟩
  simp only [list_users, h1, h2, hok2, if_true, hb]

/-- Witness for C8 (amended): an external 200 with a JSON array body is
returned verbatim with status 200. -/
theorem list_users_success_returns_200_witness :
    (list_users none none none none ⟨200, some (Json.arr []), ""⟩).result
      = .reply (Json.arr []) 200 :=
  list_users_success_returns_200 none none none none
    ⟨200, some (Json.arr []), ""⟩ (Json.arr []) True.intro True.intro
    (by decide) rfl

/-- C9: when `pageSize` or `offset` is present but `int(...)` rejects it,
`list_users` raises the uncaught conversion error before any outbound
call (no forwarded query), and Flask surfaces 500 rather than a 400 or a
normalized envelope. -/
theorem list_users_bad_int_crashes (s : String)
    (offArg whereArg sortByArg : Option String) (resp : HttpResp)
    (h : pyInt s = .error .valueError) :
    list_users (some s) offArg whereArg sortByArg resp
      = ⟨.crash .valueError, none⟩
    ∧ list_users none (some s) whereArg sortByArg resp
      = ⟨.crash .valueError, none⟩
    ∧ (HResult.crash PyErr.valueError).httpStatus = 500 := by
  refine ⟨?_, ?_, rfl⟩
  · simp only [list_users, h]
  · simp only [list_users, h]

/-- Witness for C9: the non-numeric `pageSize` value `abc` crashes the
handler with `ValueError` and nothing is forwarded. -/
theorem list_users_bad_int_crashes_witness :
    list_users (some "abc") none none none ⟨200, some (Json.arr []), ""⟩
      = ⟨.crash .valueError, none⟩ :=
  (list_users_bad_int_crashes "abc" none none none
    ⟨200, some (Json.arr []), ""⟩ rfl).1

end Crud
